import Mathlib

/-!
Shallow embedding of the trade-notification auto-accept pipeline
(`src/main.py`, class `SteamTradeAutoAccepter`).

Strings are modelled as `List Char`; Python's substring test `a in b`
becomes `inStr a b`.  The HTML document handed to the extractor by
the external markup parser is modelled as a `Doc` structure carrying the
node collections the source queries (links with `href`, images with
`src`, tables, level spans, and the flattened text).  HTTP traffic and
sleeps performed by the confirmation client are recorded as event
traces; the remote side is an oracle `Nat → HttpOutcome` giving the
outcome of each attempt's GET.
-/

abbrev Str := List Char

def str (s : String) : Str := s.toList

/-- Python's substring test `needle in hay`. -/
def inStr (needle : Str) : Str → Bool
  | [] => needle.isEmpty
  | c :: rest => needle.isPrefixOf (c :: rest) || inStr needle rest

/-- Python `\s` (ASCII approximation, as used by `str.strip`, `\s*` in
the date regexes, and the style regex). -/
def isPySpace (c : Char) : Bool :=
  c == ' ' || c == '\t' || c == '\n' || c == '\r' || c == '\x0b' || c == '\x0c'

/-- Python `\w` (ASCII approximation). -/
def isWordChar (c : Char) : Bool := c.isAlphanum || c == '_'

/-- Python `str.lower()` (ASCII approximation). -/
def lowerStr (s : Str) : Str := s.map Char.toLower

/-- Python `str.strip()`. -/
def pyStrip (s : Str) : Str :=
  ((s.dropWhile isPySpace).reverse.dropWhile isPySpace).reverse

/-- Languages distinguished by `detect_email_language` (`language` keys of
`self.language_patterns`). -/
inductive Lang where
  | german
  | english
deriving DecidableEq, Repr

/-! ### The per-language phrase catalogue (`self.language_patterns`) -/

def germanTradeConfirmation : List Str := [str "handelsbest", str "handelsangebot"]
def germanHello : List Str := [str "hallo"]
def germanYourItems : List Str := [str "ihre gegenstände", str "ihre items"]
def germanTheirItems : List Str := [str "gegenstände von", str "items von"]
def germanNoItemsSelected : List Str :=
  [str "haben keine gegenstände", str "keine gegenstände zum austausch"]
def germanNotFriends : List Str :=
  [str "sind mit diesem nutzer nicht befreundet", str "nicht befreundet"]
def germanFriendsSince : List Str := [str "auf steam seit dem", str "ist auf steam seit"]
def germanSteamLevel : List Str := [str "hat steam-level", str "steam-level"]
def germanSendOffer : List Str := [str "handelsangebot senden"]
def germanCancelTrade : List Str := [str "handel annullieren", str "annullieren"]
def germanSuccessIndicators : List Str :=
  [str "handel wurde akzeptiert", str "erfolgreich", str "bestätigt"]
def germanErrorIndicators : List Str :=
  [str "fehler", str "ungültig", str "abgelaufen", str "nicht gefunden", str "fehlgeschlagen"]

def englishTradeConfirmation : List Str := [str "trade confirmation", str "trade offer"]
def englishHello : List Str := [str "hello", str "hi"]
def englishYourItems : List Str := [str "your items", str "items you"]
def englishTheirItems : List Str := [str "items from", str "their items"]
def englishNoItemsSelected : List Str :=
  [str "you have not selected any items", str "no items selected"]
def englishNotFriends : List Str := [str "you are not friends", str "not friends with"]
def englishFriendsSince : List Str :=
  [str "you\x27ve been friends since", str "friends since"]
def englishSteamLevel : List Str := [str "steam level", str "level"]
def englishSendOffer : List Str := [str "send trade offer", str "accept trade"]
def englishCancelTrade : List Str := [str "cancel trade", str "decline"]
def englishSuccessIndicators : List Str :=
  [str "trade has been accepted", str "successfully", str "confirmed",
   str "trade offer accepted"]
def englishErrorIndicators : List Str :=
  [str "error", str "invalid", str "expired", str "not found", str "failed"]

/-- `self.language_patterns['german'].values()`, in insertion order. -/
def germanPatternGroups : List (List Str) :=
  [germanTradeConfirmation, germanHello, germanYourItems, germanTheirItems,
   germanNoItemsSelected, germanNotFriends, germanFriendsSince, germanSteamLevel,
   germanSendOffer, germanCancelTrade, germanSuccessIndicators, germanErrorIndicators]

/-- `self.language_patterns['english'].values()`, in insertion order. -/
def englishPatternGroups : List (List Str) :=
  [englishTradeConfirmation, englishHello, englishYourItems, englishTheirItems,
   englishNoItemsSelected, englishNotFriends, englishFriendsSince, englishSteamLevel,
   englishSendOffer, englishCancelTrade, englishSuccessIndicators, englishErrorIndicators]

def successIndicators : Lang → List Str
  | .german => germanSuccessIndicators
  | .english => englishSuccessIndicators

def errorIndicators : Lang → List Str
  | .german => germanErrorIndicators
  | .english => englishErrorIndicators

def noItemsSelectedPatterns : Lang → List Str
  | .german => germanNoItemsSelected
  | .english => englishNoItemsSelected

def notFriendsPatterns : Lang → List Str
  | .german => germanNotFriends
  | .english => englishNotFriends

/-! ### `detect_email_language` -/

/-- `detect_email_language(self, subject, body)`: count the phrases of each
catalogue occurring in the lower-cased `subject + " " + body`, return
`german` on a strict German majority, else `english`. -/
def detect_email_language (subject body : Str) : Lang :=
  let text_to_check := lowerStr (subject ++ str " " ++ body)
  let german_matches := germanPatternGroups.foldl
    (fun acc pl => pl.foldl
      (fun a p => if inStr (lowerStr p) text_to_check then a + 1 else a) acc) (0 : Nat)
  let english_matches := englishPatternGroups.foldl
    (fun acc pl => pl.foldl
      (fun a p => if inStr (lowerStr p) text_to_check then a + 1 else a) acc) (0 : Nat)
  if german_matches > english_matches then .german else .english

/-! ### Regex helpers used by the extractor

Each models one concrete `re` pattern of the source, specialised to the
way `re.search` / `BeautifulSoup`'s attribute filters use it. -/

/-- `re.compile(r'steamcommunity\.com/(id|profiles)/')` searching inside an
`href` (also the literal membership tests of the `elif` branch at the
counterparty loop). -/
def isProfileLinkHref (href : Str) : Bool :=
  inStr (str "steamcommunity.com/id/") href ||
  inStr (str "steamcommunity.com/profiles/") href

/-- `re.compile(r'avatars\..*steamstatic\.com')` searching inside a `src`:
an occurrence of `avatars.` followed, with no intervening newline (regex
`.` does not match a newline), by `steamstatic.com`. -/
def hasSteamstaticAfter : Str → Bool
  | [] => false
  | c :: rest =>
    if (str "steamstatic.com").isPrefixOf (c :: rest) then true
    else if c == '\n' then false
    else hasSteamstaticAfter rest

def isAvatarSrc : Str → Bool
  | [] => false
  | c :: rest =>
    ((str "avatars.").isPrefixOf (c :: rest)
        && hasSteamstaticAfter ((c :: rest).drop (str "avatars.").length))
    || isAvatarSrc rest

/-- `re.compile(r'steamstatic\.com/economy/image/')` searching inside a
`src`. -/
def isItemImageSrc (src : Str) : Bool :=
  inStr (str "steamstatic.com/economy/image/") src

/-- `re.compile(r'color:\s*#D2D2D2')` searching inside a `style`
attribute. -/
def styleColorMatchesHere (t : Str) : Bool :=
  (str "color:").isPrefixOf t
    && (str "#D2D2D2").isPrefixOf ((t.drop (str "color:").length).dropWhile isPySpace)

def styleHasItemColor : Str → Bool
  | [] => false
  | c :: rest => styleColorMatchesHere (c :: rest) || styleHasItemColor rest

/-- `re.compile(r'tradeoffer/\d+/confirm')` searching inside an `href`. -/
def tradeofferConfirmHere (t : Str) : Bool :=
  (str "tradeoffer/").isPrefixOf t
    && (let rest := t.drop (str "tradeoffer/").length
        let ds := rest.takeWhile Char.isDigit
        !ds.isEmpty && (str "/confirm").isPrefixOf (rest.drop ds.length))

def hasTradeofferConfirm : Str → Bool
  | [] => false
  | c :: rest => tradeofferConfirmHere (c :: rest) || hasTradeofferConfirm rest

/-- The first capture of `re.search(r'tradeoffer/(\d+)/', href)`. -/
def tradeIdHere (t : Str) : Option Str :=
  if (str "tradeoffer/").isPrefixOf t then
    let rest := t.drop (str "tradeoffer/").length
    let ds := rest.takeWhile Char.isDigit
    if !ds.isEmpty && (str "/").isPrefixOf (rest.drop ds.length) then some ds else none
  else none

def extractTradeId : Str → Option Str
  | [] => none
  | c :: rest =>
    match tradeIdHere (c :: rest) with
    | some ds => some ds
    | none => extractTradeId rest

/-- Index of the last decimal digit in `w`, if any. -/
def lastDigitPos (w : Str) : Option Nat :=
  match w.reverse.findIdx? Char.isDigit with
  | some i => some (w.length - 1 - i)
  | none => none

/-- The capture `(\d+\.\s*\w+\s*\d+)` matched at the start of `t`
(the group of the German friendship-date patterns), including the
backtracking of `\w+` when no digit run follows it directly. -/
def matchDateGroupDe (t : Str) : Option Str :=
  let d1 := t.takeWhile Char.isDigit
  if d1.isEmpty then none else
  match t.drop d1.length with
  | '.' :: t2 =>
    let s1 := t2.takeWhile isPySpace
    let t3 := t2.drop s1.length
    let w := t3.takeWhile isWordChar
    if w.isEmpty then none else
    let t4 := t3.drop w.length
    let s2 := t4.takeWhile isPySpace
    let d2 := (t4.drop s2.length).takeWhile Char.isDigit
    if !d2.isEmpty then some (d1 ++ '.' :: (s1 ++ w ++ s2 ++ d2))
    else
      match lastDigitPos w with
      | some p => if 1 ≤ p then some (d1 ++ '.' :: (s1 ++ w.take (p + 1))) else none
      | none => none
  | _ => none

/-- `re.search(lit + r'\s*(\d+\.\s*\w+\s*\d+)', text)`: scan for the first
occurrence of the literal after which the date group matches. -/
def searchGermanDate (lit : Str) : Str → Option Str
  | [] => none
  | c :: rest =>
    if lit.isPrefixOf (c :: rest) then
      match matchDateGroupDe (((c :: rest).drop lit.length).dropWhile isPySpace) with
      | some d => some d
      | none => searchGermanDate lit rest
    else searchGermanDate lit rest

/-- The loop over `friend_patterns` in the German branch: the first
pattern that matches wins. -/
def findGermanDate (text : Str) : Option Str :=
  match searchGermanDate (str "auf steam seit dem") text with
  | some d => some d
  | none => searchGermanDate (str "ist auf steam seit") text

/-- The capture `(\d+\s+\w+)` matched at the start of `t` (the group of
the English friendship-date pattern). -/
def matchDateGroupEn (t : Str) : Option Str :=
  let d := t.takeWhile Char.isDigit
  if d.isEmpty then none else
  let t1 := t.drop d.length
  let s := t1.takeWhile isPySpace
  if s.isEmpty then none else
  let w := (t1.drop s.length).takeWhile isWordChar
  if w.isEmpty then none else some (d ++ s ++ w)

/-- The lazy gap `.*?` before the group: try each start position in turn,
stopping at a newline (regex `.` does not match one). -/
def scanEnDateAfterGap : Str → Option Str
  | [] => none
  | c :: rest =>
    match matchDateGroupEn (c :: rest) with
    | some r => some r
    | none => if c == '\n' then none else scanEnDateAfterGap rest

/-- `re.search(r"you've been friends since.*?(\d+\s+\w+)", text)`. -/
def findEnglishDate : Str → Option Str
  | [] => none
  | c :: rest =>
    if (str "you\x27ve been friends since").isPrefixOf (c :: rest) then
      match scanEnDateAfterGap
          ((c :: rest).drop (str "you\x27ve been friends since").length) with
      | some r => some r
      | none => findEnglishDate rest
    else findEnglishDate rest

/-! ### The parsed document model

`BeautifulSoup` is an external collaborator; a `Doc` carries, in document
order, exactly the node collections the extractor queries. -/

/-- An `<a>` node with an `href` attribute (`soup.find_all('a', href=...)`
filters these by regex). -/
structure Link where
  href : Str
  text : Str
deriving DecidableEq, Repr

/-- A `<div>` node with a `style` attribute. -/
structure StyledDiv where
  style : Str
  text : Str
deriving DecidableEq, Repr

/-- A `<table>` node: its flattened text, the `src` of its `<img>` nodes,
and its styled `<div>` nodes, in document order. -/
structure HtmlTable where
  text : Str
  imgSrcs : List Str
  divs : List StyledDiv
deriving DecidableEq, Repr

/-- The parsed notification body (`soup`). -/
structure Doc where
  /-- all `<a>` nodes carrying an `href`, in document order -/
  links : List Link
  /-- `src` of all `<img>` nodes carrying a `src`, in document order -/
  imgSrcs : List Str
  /-- all `<table>` nodes -/
  tables : List HtmlTable
  /-- text of the `<span class='friendPlayerLevelNum'>` nodes -/
  levelSpanTexts : List Str
  /-- `soup.get_text()` -/
  text : Str
deriving DecidableEq, Repr

/-- An entry of `your_items` / `their_items`. -/
structure Item where
  name : Str
  image : Str
  index : Nat
deriving DecidableEq, Repr

/-- The `trade_data` dictionary built by `parse_trade_email`. -/
structure TradeData where
  trader_name : Str
  trader_profile : Option Str
  trader_avatar : Option Str
  trader_level : Str
  friendship_date : Str
  friendship_status : Str
  your_items : List Item
  their_items : List Item
  confirm_url : Option Str
  cancel_url : Option Str
  trade_id : Option Str
  is_trusted_trader : Bool
  is_donation : Bool
  language : Lang
deriving DecidableEq, Repr

/-- The initial `trade_data` dictionary literal (defaults before any
extraction step runs). -/
def baseRecord (language : Lang) : TradeData where
  trader_name := str "Unknown"
  trader_profile := none
  trader_avatar := none
  trader_level := str "Unknown"
  friendship_date := str "Unknown"
  friendship_status := str "Unknown"
  your_items := []
  their_items := []
  confirm_url := none
  cancel_url := none
  trade_id := none
  is_trusted_trader := false
  is_donation := false
  language := language

/-! ### `parse_trade_email` -/

/-- The `for link in trader_links` loop: take the link at the first
iteration that hits a `break`; both branches `break`, so scanning stops
at the first link whose `href` is truthy and either allowlisted or
profile-like.  Returns `(trader_name, trader_profile,
is_trusted_trader)` when some link was taken. -/
def identifyCounterparty (allowed_traders : List Str) :
    List Link → Option (Str × Str × Bool)
  | [] => none
  | l :: rest =>
    if !l.href.isEmpty && allowed_traders.any (fun a => inStr a l.href) then
      some (pyStrip l.text, l.href, true)
    else if !l.href.isEmpty && isProfileLinkHref l.href then
      some (pyStrip l.text, l.href, false)
    else identifyCounterparty allowed_traders rest

/-- The `is_your_items` test of `_extract_items` (literal phrases of the
source, not the catalogue lookup). -/
def tableIsYourItems (language : Lang) (table_text : Str) : Bool :=
  match language with
  | .german => [str "ihre gegenstände", str "ihre items"].any (fun p => inStr p table_text)
  | .english => inStr (str "your items") table_text

/-- The `is_their_items` test of `_extract_items`. -/
def tableIsTheirItems (language : Lang) (table_text : Str) : Bool :=
  match language with
  | .german => [str "gegenstände von", str "items von"].any (fun p => inStr p table_text)
  | .english => [str "items from", str "their items"].any (fun p => inStr p table_text)

/-- `_extract_items_from_table`: pair the i-th item image with the i-th
long-enough styled name, defaulting to `"Unknown Item"`. -/
def extractItemsFromTable (table : HtmlTable) : List Item :=
  let item_imgs := table.imgSrcs.filter isItemImageSrc
  let item_names := ((table.divs.filter (fun d => styleHasItemColor d.style)).map
      (fun d => pyStrip d.text)).filter (fun t => t.length > 3)
  (item_imgs.enum).map (fun p =>
    { name := item_names.getD p.1 (str "Unknown Item"), image := p.2, index := p.1 })

/-- The body of the table loop of `_extract_items`: a table matching the
"your items" test overwrites the first component and is not tested for
"their items" (`continue`); a table matching the "their items" test
overwrites the second component; any other table is ignored. -/
def tableStep (language : Lang) (acc : List Item × List Item) (table : HtmlTable) :
    List Item × List Item :=
  let table_text := lowerStr table.text
  if tableIsYourItems language table_text then
    (extractItemsFromTable table, acc.2)
  else if tableIsTheirItems language table_text then
    (acc.1, extractItemsFromTable table)
  else acc

/-- The table loop of `_extract_items` (`your_items`, `their_items`). -/
def classifyTables (language : Lang) (tables : List HtmlTable) :
    List Item × List Item :=
  tables.foldl (tableStep language) ([], [])

/-- The donation test at the end of `_extract_items`. -/
def detectDonation (language : Lang) (docText : Str) : Bool :=
  (noItemsSelectedPatterns language).any (fun p => inStr p (lowerStr docText))

/-- The body of the confirm/cancel-link loop of `parse_trade_email`: a
link carrying `cancel=1` sets `cancel_url`, any other sets `confirm_url`
and, when the id pattern matches, `trade_id`. -/
def confirmStep (td : TradeData) (l : Link) : TradeData :=
  if inStr (str "cancel=1") l.href then { td with cancel_url := some l.href }
  else
    { td with confirm_url := some l.href,
              trade_id := match extractTradeId l.href with
                          | some d => some d
                          | none => td.trade_id }

/-- The confirm/cancel-link loop of `parse_trade_email`, over the links
whose `href` matches the confirmation pattern (last matching link
wins). -/
def applyConfirmLinks (links : List Link) (td : TradeData) : TradeData :=
  (links.filter (fun l => hasTradeofferConfirm l.href)).foldl confirmStep td

/-- The record assembled by `parse_trade_email` before the
confirm/cancel-link loop runs (counterparty, avatar, level, friendship,
items and donation steps, in source order). -/
def preConfirmRecord (allowed_traders : List Str) (doc : Doc) (language : Lang) :
    TradeData :=
  let td := baseRecord language
  let trader_links := doc.links.filter (fun l => isProfileLinkHref l.href)
  let counterparty := identifyCounterparty allowed_traders trader_links
  let td :=
    { td with
        trader_name := match counterparty with
                       | some c => c.1
                       | none => td.trader_name,
        trader_profile := match counterparty with
                          | some c => some c.2.1
                          | none => td.trader_profile,
        is_trusted_trader := match counterparty with
                             | some c => c.2.2
                             | none => td.is_trusted_trader }
  let td :=
    { td with trader_avatar := match (doc.imgSrcs.filter isAvatarSrc).head? with
                               | some src => some src
                               | none => td.trader_avatar }
  let td :=
    { td with trader_level := match doc.levelSpanTexts.head? with
                              | some t => pyStrip t
                              | none => td.trader_level }
  let text_content := lowerStr doc.text
  let td :=
    { td with friendship_status :=
        (if (notFriendsPatterns language).any (fun p => inStr p text_content) then
          str "Not friends"
        else td.friendship_status) }
  let date_found :=
    match language with
    | .german => findGermanDate text_content
    | .english => findEnglishDate text_content
  let td :=
    { td with friendship_date := match date_found with
                                 | some d => d
                                 | none => td.friendship_date }
  let items := classifyTables language doc.tables
  { td with your_items := items.1, their_items := items.2,
            is_donation := detectDonation language doc.text }

/-- `parse_trade_email(self, body, language)` on an already-parsed
document (markup parsing itself is the external collaborator's job). -/
def parse_trade_email (allowed_traders : List Str) (doc : Doc) (language : Lang) :
    TradeData :=
  applyConfirmLinks doc.links (preConfirmRecord allowed_traders doc language)

/-! ### `is_trader_allowed` -/

/-- `is_trader_allowed(self, trade_data)`: reject on a falsy
`trader_profile` (missing or empty), otherwise accept iff some allowlist
entry occurs as a substring of it. -/
def is_trader_allowed (allowed_traders : List Str) (trade_data : TradeData) : Bool :=
  match trade_data.trader_profile with
  | none => false
  | some trader_profile =>
    if trader_profile.isEmpty then false
    else allowed_traders.any (fun allowed_trader => inStr allowed_trader trader_profile)

/-! ### `accept_trade` -/

/-- Outcome of one `self.session.get(confirm_url, timeout=45)` call
(the session's own transport-level retries are inside the HTTP Client
collaborator and invisible here): a response, or one of the exception
classes the source distinguishes. -/
inductive HttpOutcome where
  /-- a response object with its status code and body text -/
  | ok (status : Nat) (body : Str)
  /-- `ConnectionError` / `Timeout` -/
  | connErr
  /-- other `RequestException` -/
  | reqErr
  /-- any other `Exception` -/
  | otherErr
deriving DecidableEq, Repr

/-- Observable side effects of `accept_trade`: a randomized sleep drawn
from `random.uniform(lo, hi)`, or one GET against the confirmation
URL. -/
inductive Event where
  | sleep (lo hi : Nat)
  | get (url : Str)
deriving DecidableEq, Repr

def countGets (trace : List Event) : Nat :=
  trace.countP (fun e => match e with | .get _ => true | _ => false)

/-- The body of `for attempt in range(max_retries)`, with `fuel`
iterations left (`fuel = max_retries - attempt` throughout an actual
run); the fuel-exhausted case is the loop falling through to the final
`return False`.  Returns the boolean result paired with the trace of
sleeps and GETs, in order. -/
def acceptTradeLoop (http : Nat → HttpOutcome) (language : Lang) (confirm_url : Str)
    (max_retries : Nat) (attempt : Nat) : Nat → Bool × List Event
  | 0 => (false, [])
  | fuel + 1 =>
    let pre : List Event := if attempt > 0 then [.sleep 5 15] else []
    let ev := pre ++ [.get confirm_url]
    match http attempt with
    | .ok status body =>
      if status == 200 then
        let response_text := lowerStr body
        if (successIndicators language).any (fun p => inStr p response_text) then
          (true, ev)
        else if (errorIndicators language).any (fun p => inStr p response_text) then
          if attempt < max_retries - 1 then
            let r := acceptTradeLoop http language confirm_url max_retries (attempt + 1) fuel
            (r.1, ev ++ r.2)
          else (false, ev)
        else (true, ev)
      else
        if attempt < max_retries - 1 then
          let r := acceptTradeLoop http language confirm_url max_retries (attempt + 1) fuel
          (r.1, ev ++ r.2)
        else (false, ev)
    | .connErr =>
      if attempt < max_retries - 1 then
        let r := acceptTradeLoop http language confirm_url max_retries (attempt + 1) fuel
        (r.1, ev ++ [.sleep 10 30] ++ r.2)
      else (false, ev)
    | .reqErr =>
      if attempt < max_retries - 1 then
        let r := acceptTradeLoop http language confirm_url max_retries (attempt + 1) fuel
        (r.1, ev ++ r.2)
      else (false, ev)
    | .otherErr =>
      if attempt < max_retries - 1 then
        let r := acceptTradeLoop http language confirm_url max_retries (attempt + 1) fuel
        (r.1, ev ++ r.2)
      else (false, ev)

/-- `accept_trade(self, confirm_url, max_retries=3, language='english')`,
with the remote side given by the per-attempt oracle `http`. -/
def accept_trade (http : Nat → HttpOutcome) (confirm_url : Str)
    (max_retries : Nat) (language : Lang) : Bool × List Event :=
  acceptTradeLoop http language confirm_url max_retries 0 max_retries

/-- An attempt whose outcome sends `accept_trade` down a
failed-attempt branch (non-200 status, 200 with an error indicator and
no success indicator, or any exception). -/
def attemptFails (language : Lang) : HttpOutcome → Bool
  | .ok status body =>
    if status == 200 then
      let response_text := lowerStr body
      !(successIndicators language).any (fun p => inStr p response_text)
        && (errorIndicators language).any (fun p => inStr p response_text)
    else true
  | .connErr => true
  | .reqErr => true
  | .otherErr => true

/-! ### `get_trade_offer_emails` / `process_trade_offers` -/

/-- A fetched unread notification (id, transport-decoded subject, body
text); markup parsing of the body is abstracted by the `parse` argument
below. -/
structure Email where
  emailId : Nat
  subject : Str
  body : Str
deriving DecidableEq, Repr

/-- The `is_trade_email` subject test. -/
def isTradeEmailSubject (subject : Str) : Bool :=
  let subject_lower := lowerStr subject
  (inStr (str "trade") subject_lower
      && (inStr (str "confirmation") subject_lower
          || inStr (str "offer") subject_lower))
    || (inStr (str "handel") subject_lower
        && (inStr (str "bestätigung") subject_lower
            || inStr (str "angebot") subject_lower))

/-- An element of the `trade_offers` list built by
`get_trade_offer_emails`. -/
structure Offer where
  emailId : Nat
  subject : Str
  tradeData : TradeData
  language : Lang
  rawBody : Str
deriving DecidableEq, Repr

/-- `get_trade_offer_emails(self, mail)` on an already-fetched batch:
keep the trade-subject notifications whose extraction yields a record
(`if trade_data:`), tagging each with its detected language.
`parse body language` is the outcome of `self.parse_trade_email(body,
language)`, which is fallible (`None` on an internal error). -/
def offerStep (parse : Str → Lang → Option TradeData)
    (trade_offers : List Offer) (e : Email) : List Offer :=
  if isTradeEmailSubject e.subject then
    let language := detect_email_language e.subject e.body
    match parse e.body language with
    | some trade_data =>
      trade_offers ++ [{ emailId := e.emailId, subject := e.subject,
                         tradeData := trade_data, language := language,
                         rawBody := e.body }]
    | none => trade_offers
  else trade_offers

def get_trade_offer_emails (parse : Str → Lang → Option TradeData)
    (emails : List Email) : List Offer :=
  emails.foldl (offerStep parse) []

/-- Observable side effects of `process_trade_offers`: an
`accept_trade(url, max_retries=3, language)` invocation, or a
`mark_email_as_read` request for an email id. -/
inductive PEvent where
  | accept (url : Str) (language : Lang)
  | markRead (emailId : Nat)
deriving DecidableEq, Repr

/-- Python truthiness of `trade_data.get('confirm_url')`. -/
def pyTruthyOptStr : Option Str → Bool
  | none => false
  | some s => !s.isEmpty

/-- One iteration of the `for offer in trade_offers` loop.  `accept url
language` is the boolean returned by `self.accept_trade(url,
max_retries=3, language=offer_language)`.  Returns the contributions to
`(processed_count, accepted_count)` and the emitted side effects in
order. -/
def processOne (allowed_traders : List Str) (accept : Str → Lang → Bool)
    (offer : Offer) : Nat × Nat × List PEvent :=
  if !is_trader_allowed allowed_traders offer.tradeData then
    (1, 0, [.markRead offer.emailId])
  else if pyTruthyOptStr offer.tradeData.confirm_url then
    let url := offer.tradeData.confirm_url.getD []
    let ok := accept url offer.language
    (1, if ok then 1 else 0, [.accept url offer.language, .markRead offer.emailId])
  else
    (1, 0, [.markRead offer.emailId])

/-- `process_trade_offers(self, trade_offers, mail)`. -/
def process_trade_offers (allowed_traders : List Str) (accept : Str → Lang → Bool)
    (trade_offers : List Offer) : Nat × Nat × List PEvent :=
  trade_offers.foldl (fun acc offer =>
    let r := processOne allowed_traders accept offer
    (acc.1 + r.1, acc.2.1 + r.2.1, acc.2.2 ++ r.2.2)) (0, 0, [])

/-! ### Concrete inputs used by counterexamples and witnesses -/

/-- The events strictly between the first and the second GET of a
trace. -/
def betweenFirstTwoGets (trace : List Event) : List Event :=
  ((trace.dropWhile
      (fun e => match e with | .get _ => false | _ => true)).drop 1).takeWhile
    (fun e => match e with | .get _ => false | _ => true)

/-- A document whose first profile-like link is not allowlisted while its
second one is. -/
def docWithLaterAllowlistedLink : Doc where
  links := [{ href := str "https://steamcommunity.com/id/bob/", text := str "Bob" },
            { href := str "https://steamcommunity.com/id/alice/", text := str "Alice" }]
  imgSrcs := []
  tables := []
  levelSpanTexts := []
  text := []

/-- A document with a populated "their items" table and, elsewhere in its
text, a "no items selected" phrase. -/
def donationWithItemsDoc : Doc where
  links := []
  imgSrcs := []
  tables := [{ text := str "Their items from Bob",
               imgSrcs := [str "cdn.steamstatic.com/economy/image/i1"],
               divs := [] }]
  levelSpanTexts := []
  text := str "no items selected"

/-- A document with no nodes at all. -/
def emptyDoc : Doc where
  links := []
  imgSrcs := []
  tables := []
  levelSpanTexts := []
  text := []

/-- A fetched notification with a trade subject. -/
def tradeSubjectEmail : Email where
  emailId := 1
  subject := str "Trade Offer"
  body := str "x"

/-! ### General lemmas about the embedding -/

/-- The executable substring test agrees with the mathematical infix
relation. -/
lemma inStr_eq_true_iff (needle hay : Str) : inStr needle hay = true ↔ needle <:+: hay := by
  induction hay with
  | nil => simp [inStr, List.isEmpty_iff, List.infix_nil]
  | cons c rest ih =>
    simp [inStr, List.infix_cons_iff, ih, List.isPrefixOf_iff_prefix]

lemma inStr_nonempty_of_ne_nil {needle hay : Str} (h : inStr needle hay = true)
    (hn : needle ≠ []) : hay ≠ [] := by
  intro he
  subst he
  simp [inStr, List.isEmpty_iff] at h
  exact hn h

lemma foldl_count_eq (f : Str → Bool) (l : List Str) (acc : Nat) :
    l.foldl (fun a p => if f p then a + 1 else a) acc = acc + l.countP f := by
  induction l generalizing acc with
  | nil => simp
  | cons x xs ih =>
    simp only [List.foldl, List.countP_cons, ih]
    by_cases h : f x = true
    · simp [h]
      omega
    · simp [h]

lemma groups_count_eq (f : Str → Bool) (groups : List (List Str)) (acc : Nat) :
    groups.foldl (fun acc pl =>
        pl.foldl (fun a p => if f p then a + 1 else a) acc) acc =
      acc + groups.flatten.countP f := by
  induction groups generalizing acc with
  | nil => simp
  | cons g gs ih =>
    rw [List.foldl_cons, ih, foldl_count_eq, List.flatten_cons, List.countP_append]
    omega

/- ===================== C8 ===================== -/

/-- C8: `detect_email_language` lower-cases the concatenation of subject
and body, counts the German-catalogue phrases and the English-catalogue
phrases occurring in it, and returns `german` iff the German count
strictly exceeds the English count, `english` otherwise; in particular
it returns `english` whenever no German phrase occurs at all (ties and
cue-free bodies included). -/
theorem C8_detect_language_spec (subject body : Str) :
    (detect_email_language subject body =
      (if germanPatternGroups.flatten.countP
            (fun p => inStr (lowerStr p) (lowerStr (subject ++ str " " ++ body))) >
          englishPatternGroups.flatten.countP
            (fun p => inStr (lowerStr p) (lowerStr (subject ++ str " " ++ body))) then
        Lang.german else Lang.english)) ∧
    ((∀ p ∈ germanPatternGroups.flatten,
        inStr (lowerStr p) (lowerStr (subject ++ str " " ++ body)) = false) →
      detect_email_language subject body = Lang.english) := by
  constructor
  · unfold detect_email_language
    simp only [groups_count_eq, Nat.zero_add]
  · intro h
    unfold detect_email_language
    simp only [groups_count_eq, Nat.zero_add]
    have hz : germanPatternGroups.flatten.countP
        (fun p => inStr (lowerStr p) (lowerStr (subject ++ str " " ++ body))) = 0 := by
      rw [List.countP_eq_zero]
      intro p hp
      simp only [Bool.not_eq_true]
      exact h p hp
    rw [hz]
    simp

/-- Witness for C8 at a concrete cue-free input. -/
theorem C8_detect_language_spec_witness :
    detect_email_language (str "x") (str "zzz qq") = Lang.english :=
  (C8_detect_language_spec (str "x") (str "zzz qq")).2 (by decide)

/- ===================== C1 ===================== -/

/-- C1 as stated is false at a present-but-empty profile reference: the
record's `counterparty_profile_ref` is not absent, the allowlist entry
`""` occurs as a substring of it, yet `is_trader_allowed` returns
`false` (Python's falsy test rejects the empty string). -/
theorem C1_counterexample :
    is_trader_allowed [([] : Str)]
        { baseRecord .english with trader_profile := some [] } = false ∧
    inStr ([] : Str) ([] : Str) = true ∧
    ({ baseRecord .english with trader_profile := some [] } : TradeData).trader_profile
      ≠ none := by
  refine ⟨rfl, rfl, ?_⟩
  simp [baseRecord]

/-- C1 (amended): `is_trader_allowed` returns false when the profile
reference is absent or empty; for a nonempty profile reference it
returns true iff some allowlist entry is an infix of it; and it is
monotonic in the allowlist. -/
theorem C1_is_trader_allowed_spec (allowed allowed' : List Str) (td : TradeData) :
    (td.trader_profile = none → is_trader_allowed allowed td = false) ∧
    (td.trader_profile = some [] → is_trader_allowed allowed td = false) ∧
    (∀ p, td.trader_profile = some p → p ≠ [] →
      (is_trader_allowed allowed td = true ↔ ∃ a ∈ allowed, a <:+: p)) ∧
    (allowed ⊆ allowed' → is_trader_allowed allowed td = true →
      is_trader_allowed allowed' td = true) := by
  refine ⟨?_, ?_, ?_, ?_⟩
  · intro h
    simp [is_trader_allowed, h]
  · intro h
    simp [is_trader_allowed, h]
  · intro p hp hne
    have hemp : p.isEmpty = false := by
      cases p with
      | nil => exact absurd rfl hne
      | cons c t => rfl
    simp only [is_trader_allowed, hp, hemp, Bool.false_eq_true, if_false,
      List.any_eq_true]
    constructor
    · rintro ⟨a, ha, hin⟩
      exact ⟨a, ha, (inStr_eq_true_iff a p).mp hin⟩
    · rintro ⟨a, ha, hin⟩
      exact ⟨a, ha, (inStr_eq_true_iff a p).mpr hin⟩
  · intro hsub h
    cases hp : td.trader_profile with
    | none => simp [is_trader_allowed, hp] at h
    | some p =>
      cases hemp : p.isEmpty with
      | true => simp [is_trader_allowed, hp, hemp] at h
      | false =>
        simp only [is_trader_allowed, hp, hemp, Bool.false_eq_true, if_false,
          List.any_eq_true] at h ⊢
        obtain ⟨a, ha, hin⟩ := h
        exact ⟨a, hsub ha, hin⟩

/-- Witness for C1's amended theorem at concrete inputs. -/
theorem C1_is_trader_allowed_spec_witness :
    (is_trader_allowed [str "alice"]
        { baseRecord .english with trader_profile := some (str "/id/alice") } = true
      ↔ ∃ a ∈ [str "alice"], a <:+: str "/id/alice") ∧
    is_trader_allowed [str "alice", str "bob"]
        { baseRecord .english with trader_profile := some (str "/id/alice") } = true := by
  refine ⟨(C1_is_trader_allowed_spec [str "alice"] [str "alice"] _).2.2.1
            (str "/id/alice") rfl (by decide), ?_⟩
  refine (C1_is_trader_allowed_spec [str "alice"] [str "alice", str "bob"] _).2.2.2
    ?_ (by decide)
  intro x hx
  simp only [List.mem_singleton] at hx
  simp [hx]

/- ===================== C2 ===================== -/

lemma processOne_fst (allowed_traders : List Str) (accept : Str → Lang → Bool)
    (offer : Offer) : (processOne allowed_traders accept offer).1 = 1 := by
  unfold processOne
  split
  · rfl
  · split <;> rfl

lemma process_trade_offers_foldl (allowed_traders : List Str)
    (accept : Str → Lang → Bool) (trade_offers : List Offer)
    (acc : Nat × Nat × List PEvent) :
    trade_offers.foldl (fun acc offer =>
        let r := processOne allowed_traders accept offer
        (acc.1 + r.1, acc.2.1 + r.2.1, acc.2.2 ++ r.2.2)) acc =
      (acc.1 + trade_offers.length,
       acc.2.1 + (trade_offers.map
          (fun o => (processOne allowed_traders accept o).2.1)).sum,
       acc.2.2 ++ (trade_offers.map
          (fun o => (processOne allowed_traders accept o).2.2)).flatten) := by
  induction trade_offers generalizing acc with
  | nil => simp
  | cons o os ih =>
    rw [List.foldl_cons, ih]
    simp [processOne_fst]
    omega

/-- C2: an `accept_trade` invocation can only be emitted, for any record,
from the branch guarded by a truthy `confirm_url`; a record whose
`confirm_ref` is absent contributes no such invocation, and the batch
processor's side effects are exactly the concatenation of the per-record
ones. -/
theorem C2_no_confirm_no_accept (allowed_traders : List Str)
    (accept : Str → Lang → Bool) (trade_offers : List Offer) (offer : Offer)
    (h : offer.tradeData.confirm_url = none) :
    (∀ u lang, PEvent.accept u lang ∉ (processOne allowed_traders accept offer).2.2) ∧
    (process_trade_offers allowed_traders accept trade_offers).2.2 =
      (trade_offers.map
        (fun o => (processOne allowed_traders accept o).2.2)).flatten := by
  constructor
  · intro u lang
    unfold processOne
    by_cases hb : is_trader_allowed allowed_traders offer.tradeData <;>
      simp [hb, pyTruthyOptStr, h]
  · unfold process_trade_offers
    rw [process_trade_offers_foldl]
    simp

/-- Witness for C2 at a concrete record without a confirmation URL. -/
theorem C2_no_confirm_no_accept_witness :
    PEvent.accept (str "u") .english ∉
      (processOne [] (fun _ _ => true)
        { emailId := 1, subject := str "s", tradeData := baseRecord .english,
          language := .english, rawBody := str "" }).2.2 :=
  (C2_no_confirm_no_accept [] (fun _ _ => true) [] _ rfl).1 (str "u") .english

/- ============ lemmas about `acceptTradeLoop` ============ -/

@[simp] lemma countGets_nil : countGets [] = 0 := rfl

@[simp] lemma countGets_cons_sleep (lo hi : Nat) (tr : List Event) :
    countGets (Event.sleep lo hi :: tr) = countGets tr := by
  simp [countGets, List.countP_cons]

@[simp] lemma countGets_cons_get (u : Str) (tr : List Event) :
    countGets (Event.get u :: tr) = countGets tr + 1 := by
  simp [countGets, List.countP_cons]

@[simp] lemma countGets_append (a b : List Event) :
    countGets (a ++ b) = countGets a + countGets b := by
  simp [countGets, List.countP_append]

/-- Unfolding of one failed attempt: the loop emits its pre-attempt delay
and its GET, then (below the retry budget) the connectivity backoff when
the failure was a connectivity exception, and recurses; at the budget it
returns `false`. -/
lemma acceptTradeLoop_fail_step (http : Nat → HttpOutcome) (lang : Lang) (url : Str)
    (mr attempt fuel : Nat) (hf : attemptFails lang (http attempt) = true) :
    acceptTradeLoop http lang url mr attempt (fuel + 1) =
      (if attempt < mr - 1 then
        ((acceptTradeLoop http lang url mr (attempt + 1) fuel).1,
         ((if attempt > 0 then [Event.sleep 5 15] else []) ++ [Event.get url]) ++
           (if http attempt = .connErr then [Event.sleep 10 30] else []) ++
           (acceptTradeLoop http lang url mr (attempt + 1) fuel).2)
       else
        (false, (if attempt > 0 then [Event.sleep 5 15] else []) ++ [Event.get url])) := by
  cases h : http attempt with
  | ok status body =>
    rw [h] at hf
    simp only [attemptFails] at hf
    cases h200 : (status == 200) with
    | true =>
      rw [if_pos h200, Bool.and_eq_true] at hf
      obtain ⟨h1, h2⟩ := hf
      have hs : ((successIndicators lang).any fun p => inStr p (lowerStr body))
          = false := by
        revert h1
        cases ((successIndicators lang).any fun p => inStr p (lowerStr body)) <;>
          simp
      simp only [acceptTradeLoop, h]
      simp only [h200, hs, h2, Bool.false_eq_true, if_false, if_true]
      split <;> simp
    | false =>
      simp only [acceptTradeLoop, h]
      simp only [h200, Bool.false_eq_true, if_false]
      split <;> simp
  | connErr =>
    simp only [acceptTradeLoop, h]
    split <;> simp
  | reqErr =>
    simp only [acceptTradeLoop, h]
    split <;> simp
  | otherErr =>
    simp only [acceptTradeLoop, h]
    split <;> simp

/-- If every attempt fails, the loop returns `false` from any state. -/
lemma acceptTradeLoop_allFail_false (http : Nat → HttpOutcome) (lang : Lang)
    (url : Str) (mr : Nat) (hf : ∀ n, attemptFails lang (http n) = true) :
    ∀ fuel attempt, (acceptTradeLoop http lang url mr attempt fuel).1 = false := by
  intro fuel
  induction fuel with
  | zero => intro _; rfl
  | succ fuel ih =>
    intro attempt
    rw [acceptTradeLoop_fail_step http lang url mr attempt fuel (hf attempt)]
    by_cases hlt : attempt < mr - 1
    · simp [hlt, ih]
    · simp [hlt]

/-- If every attempt fails, the loop performs one GET per remaining
attempt. -/
lemma acceptTradeLoop_allFail_gets (http : Nat → HttpOutcome) (lang : Lang)
    (url : Str) (mr : Nat) (hf : ∀ n, attemptFails lang (http n) = true) :
    ∀ fuel attempt, attempt + fuel = mr → 1 ≤ fuel →
      countGets (acceptTradeLoop http lang url mr attempt fuel).2 = fuel := by
  intro fuel
  induction fuel with
  | zero => intro _ _ h; omega
  | succ fuel ih =>
    intro attempt hsum _
    rw [acceptTradeLoop_fail_step http lang url mr attempt fuel (hf attempt)]
    by_cases hlt : attempt < mr - 1
    · have hfuel : 1 ≤ fuel := by omega
      have hsum' : (attempt + 1) + fuel = mr := by omega
      have ihr := ih (attempt + 1) hsum' hfuel
      by_cases hgt : attempt > 0 <;>
        by_cases hc : http attempt = .connErr <;>
        simp [hlt, hgt, hc, ihr]
    · have hfuel : fuel = 0 := by omega
      by_cases hgt : attempt > 0 <;> simp [hlt, hgt, hfuel]

/-- The first events of an iteration: the pre-attempt delay (absent on
attempt 1) followed by the GET. -/
lemma acceptTradeLoop_trace_take (http : Nat → HttpOutcome) (lang : Lang)
    (url : Str) (mr attempt fuel : Nat) :
    (acceptTradeLoop http lang url mr attempt (fuel + 1)).2.take
        (if attempt > 0 then 2 else 1) =
      (if attempt > 0 then [Event.sleep 5 15] else []) ++ [Event.get url] := by
  by_cases hgt : attempt > 0 <;>
    cases h : http attempt <;>
    simp only [acceptTradeLoop, h, hgt, if_true, if_false] <;>
    split_ifs <;>
    simp [List.take]

/- ===================== C5 ===================== -/

/-- C5: when every attempt fails (non-200 status each time, for
instance), `accept_trade` with `max_retries = 3` performs exactly three
GET requests and returns `false`. -/
theorem C5_three_failed_attempts (http : Nat → HttpOutcome) (language : Lang)
    (confirm_url : Str) (hf : ∀ n, attemptFails language (http n) = true) :
    (accept_trade http confirm_url 3 language).1 = false ∧
    countGets (accept_trade http confirm_url 3 language).2 = 3 := by
  unfold accept_trade
  exact ⟨acceptTradeLoop_allFail_false http language confirm_url 3 hf 3 0,
         acceptTradeLoop_allFail_gets http language confirm_url 3 hf 3 0 rfl
           (by omega)⟩

/-- Witness for C5: HTTP 500 on every attempt. -/
theorem C5_three_failed_attempts_witness :
    (accept_trade (fun _ => HttpOutcome.ok 500 []) (str "u") 3 .english).1 = false ∧
    countGets (accept_trade (fun _ => HttpOutcome.ok 500 []) (str "u") 3
        .english).2 = 3 :=
  C5_three_failed_attempts (fun _ => HttpOutcome.ok 500 []) .english (str "u")
    (fun _ => rfl)

/- ===================== C6 ===================== -/

/-- C6: an attempt that receives HTTP 200 whose lower-cased body matches
no success indicator and no error indicator returns `true` immediately,
with a single GET performed by that iteration. -/
theorem C6_ambiguous_200_true (http : Nat → HttpOutcome) (language : Lang)
    (confirm_url : Str) (max_retries attempt fuel : Nat) (body : Str)
    (h : http attempt = .ok 200 body)
    (hs : (successIndicators language).any
      (fun p => inStr p (lowerStr body)) = false)
    (he : (errorIndicators language).any
      (fun p => inStr p (lowerStr body)) = false) :
    acceptTradeLoop http language confirm_url max_retries attempt (fuel + 1) =
      (true, (if attempt > 0 then [Event.sleep 5 15] else []) ++
        [Event.get confirm_url]) := by
  simp [acceptTradeLoop, h, hs, he]

/-- Witness for C6 at a concrete indicator-free body. -/
theorem C6_ambiguous_200_true_witness :
    acceptTradeLoop (fun _ => HttpOutcome.ok 200 (str "blah")) .english (str "u")
        3 0 (2 + 1) =
      (true, (if 0 > 0 then [Event.sleep 5 15] else []) ++ [Event.get (str "u")]) :=
  C6_ambiguous_200_true (fun _ => HttpOutcome.ok 200 (str "blah")) .english
    (str "u") 3 0 2 (str "blah") rfl (by decide) (by decide)

/- ===================== C10 ===================== -/

/-- C10: the success and error indicator sets are disjoint for both
languages, yet one 200 body can match both; in that case the success
test is evaluated first, so the attempt returns `true` immediately
without retrying. -/
theorem C10_success_precedence (http : Nat → HttpOutcome) (language : Lang)
    (confirm_url : Str) (max_retries attempt fuel : Nat) (body : Str)
    (h : http attempt = .ok 200 body)
    (hs : (successIndicators language).any
      (fun p => inStr p (lowerStr body)) = true)
    (he : (errorIndicators language).any
      (fun p => inStr p (lowerStr body)) = true) :
    (acceptTradeLoop http language confirm_url max_retries attempt (fuel + 1) =
      (true, (if attempt > 0 then [Event.sleep 5 15] else []) ++
        [Event.get confirm_url])) ∧
    germanSuccessIndicators.all
      (fun p => !germanErrorIndicators.contains p) = true ∧
    englishSuccessIndicators.all
      (fun p => !englishErrorIndicators.contains p) = true := by
  refine ⟨?_, by decide, by decide⟩
  simp [acceptTradeLoop, h, hs]

/-- Witness for C10: an English body containing both `error` and
`confirmed`. -/
theorem C10_success_precedence_witness :
    (acceptTradeLoop (fun _ => HttpOutcome.ok 200 (str "error but confirmed"))
        .english (str "u") 3 0 (2 + 1) =
      (true, (if 0 > 0 then [Event.sleep 5 15] else []) ++ [Event.get (str "u")])) ∧
    germanSuccessIndicators.all
      (fun p => !germanErrorIndicators.contains p) = true ∧
    englishSuccessIndicators.all
      (fun p => !englishErrorIndicators.contains p) = true :=
  C10_success_precedence (fun _ => HttpOutcome.ok 200 (str "error but confirmed"))
    .english (str "u") 3 0 2 (str "error but confirmed") rfl (by decide) (by decide)

/- ===================== C7 ===================== -/

/-- C7 as stated is false: after a connectivity failure on attempt 1, the
second attempt is preceded by two delays (the 10–30 connectivity backoff
of the handler followed by the ordinary 5–15 delay at the top of the
next iteration), not by exactly one. -/
theorem C7_counterexample :
    (accept_trade (fun n => if n == 0 then HttpOutcome.connErr else .ok 500 [])
        (str "u") 3 .english).2 =
      [Event.get (str "u"), Event.sleep 10 30, Event.sleep 5 15,
       Event.get (str "u"), Event.sleep 5 15, Event.get (str "u")] ∧
    (betweenFirstTwoGets
      (accept_trade (fun n => if n == 0 then HttpOutcome.connErr else .ok 500 [])
        (str "u") 3 .english).2).length ≠ 1 := by
  decide

/-- C7 (amended): attempt 1 fires its GET with no preceding delay;
every attempt ≥ 2 begins with exactly one 5–15 delay before its GET; and
an attempt that fails with a connectivity exception below the retry
budget additionally appends one 10–30 delay before the next iteration,
so the attempt after a connectivity failure is preceded by two delays
(10–30 then 5–15). -/
theorem C7_delay_structure (http : Nat → HttpOutcome) (language : Lang)
    (confirm_url : Str) (max_retries attempt fuel : Nat) :
    ((acceptTradeLoop http language confirm_url max_retries 0 (fuel + 1)).2.take 1 =
      [Event.get confirm_url]) ∧
    (attempt > 0 →
      (acceptTradeLoop http language confirm_url max_retries attempt
          (fuel + 1)).2.take 2 =
        [Event.sleep 5 15, Event.get confirm_url]) ∧
    (http attempt = .connErr → attempt < max_retries - 1 →
      (acceptTradeLoop http language confirm_url max_retries attempt
          (fuel + 1)).2 =
        ((if attempt > 0 then [Event.sleep 5 15] else []) ++
          [Event.get confirm_url]) ++ [Event.sleep 10 30] ++
          (acceptTradeLoop http language confirm_url max_retries (attempt + 1)
            fuel).2) := by
  refine ⟨?_, ?_, ?_⟩
  · have h := acceptTradeLoop_trace_take http language confirm_url max_retries 0 fuel
    simpa using h
  · intro hgt
    have h := acceptTradeLoop_trace_take http language confirm_url max_retries
      attempt fuel
    simpa [hgt] using h
  · intro hc hlt
    have hf : attemptFails language (http attempt) = true := by
      rw [hc]
      rfl
    rw [acceptTradeLoop_fail_step http language confirm_url max_retries attempt
      fuel hf]
    simp [hlt, hc]

/-- Witness for C7's amended theorem: connectivity failure at attempt 2
of 3. -/
theorem C7_delay_structure_witness :
    ((acceptTradeLoop (fun _ => HttpOutcome.connErr) .english (str "u") 3 1
        (1 + 1)).2.take 2 = [Event.sleep 5 15, Event.get (str "u")]) ∧
    ((acceptTradeLoop (fun _ => HttpOutcome.connErr) .english (str "u") 3 1
        (1 + 1)).2 =
      ((if 1 > 0 then [Event.sleep 5 15] else []) ++ [Event.get (str "u")]) ++
        [Event.sleep 10 30] ++
        (acceptTradeLoop (fun _ => HttpOutcome.connErr) .english (str "u") 3 2
          1).2) :=
  ⟨(C7_delay_structure (fun _ => HttpOutcome.connErr) .english (str "u") 3 1
      1).2.1 (by decide),
   (C7_delay_structure (fun _ => HttpOutcome.connErr) .english (str "u") 3 1
      1).2.2 rfl (by decide)⟩

/- ============ lemmas about the extractor ============ -/

lemma identifyCounterparty_cons (allowed_traders : List Str) (l : Link)
    (rest : List Link) (hp : isProfileLinkHref l.href = true) :
    identifyCounterparty allowed_traders (l :: rest) =
      some (pyStrip l.text, l.href,
        allowed_traders.any fun a => inStr a l.href) := by
  have hne : l.href ≠ [] := by
    rcases Bool.or_eq_true_iff.mp hp with hin | hin
    · exact inStr_nonempty_of_ne_nil hin (by decide)
    · exact inStr_nonempty_of_ne_nil hin (by decide)
  have hemp : l.href.isEmpty = false := by
    cases hh : l.href with
    | nil => exact absurd hh hne
    | cons c t => rfl
  cases ha : (allowed_traders.any fun a => inStr a l.href) <;>
    simp [identifyCounterparty, hemp, ha, hp]

/-- On the filtered `trader_links` list the counterparty loop always
takes the first link. -/
lemma identifyCounterparty_filter (allowed_traders : List Str)
    (links : List Link) :
    identifyCounterparty allowed_traders
        (links.filter fun l => isProfileLinkHref l.href) =
      ((links.filter fun l => isProfileLinkHref l.href).head?).map
        (fun l => (pyStrip l.text, l.href,
          allowed_traders.any fun a => inStr a l.href)) := by
  cases hfl : links.filter (fun l => isProfileLinkHref l.href) with
  | nil => rfl
  | cons l rest =>
    have hl : l ∈ links.filter (fun l => isProfileLinkHref l.href) := by
      rw [hfl]
      exact List.mem_cons_self l rest
    have hp : isProfileLinkHref l.href = true := (List.mem_filter.mp hl).2
    rw [identifyCounterparty_cons allowed_traders l rest hp]
    rfl

/-- The confirm-link loop touches only `confirm_url`, `cancel_url` and
`trade_id`. -/
lemma confirmFold_fields (ls : List Link) (td : TradeData) :
    ((ls.foldl confirmStep td).trader_profile = td.trader_profile ∧
     (ls.foldl confirmStep td).is_trusted_trader = td.is_trusted_trader ∧
     (ls.foldl confirmStep td).trader_name = td.trader_name) ∧
    ((ls.foldl confirmStep td).their_items = td.their_items ∧
     (ls.foldl confirmStep td).your_items = td.your_items ∧
     (ls.foldl confirmStep td).is_donation = td.is_donation) := by
  induction ls generalizing td with
  | nil => exact ⟨⟨rfl, rfl, rfl⟩, rfl, rfl, rfl⟩
  | cons l ls ih =>
    rw [List.foldl_cons]
    have hstep : (confirmStep td l).trader_profile = td.trader_profile ∧
        (confirmStep td l).is_trusted_trader = td.is_trusted_trader ∧
        (confirmStep td l).trader_name = td.trader_name ∧
        (confirmStep td l).their_items = td.their_items ∧
        (confirmStep td l).your_items = td.your_items ∧
        (confirmStep td l).is_donation = td.is_donation := by
      unfold confirmStep
      split <;> exact ⟨rfl, rfl, rfl, rfl, rfl, rfl⟩
    obtain ⟨⟨i1, i2, i3⟩, i4, i5, i6⟩ := ih (confirmStep td l)
    exact ⟨⟨i1.trans hstep.1, i2.trans hstep.2.1, i3.trans hstep.2.2.1⟩,
           i4.trans hstep.2.2.2.1, i5.trans hstep.2.2.2.2.1,
           i6.trans hstep.2.2.2.2.2⟩

lemma applyConfirmLinks_trader_profile (links : List Link) (td : TradeData) :
    (applyConfirmLinks links td).trader_profile = td.trader_profile :=
  (confirmFold_fields _ td).1.1

lemma applyConfirmLinks_is_trusted (links : List Link) (td : TradeData) :
    (applyConfirmLinks links td).is_trusted_trader = td.is_trusted_trader :=
  (confirmFold_fields _ td).1.2.1

lemma applyConfirmLinks_trader_name (links : List Link) (td : TradeData) :
    (applyConfirmLinks links td).trader_name = td.trader_name :=
  (confirmFold_fields _ td).1.2.2

lemma applyConfirmLinks_their_items (links : List Link) (td : TradeData) :
    (applyConfirmLinks links td).their_items = td.their_items :=
  (confirmFold_fields _ td).2.1

lemma applyConfirmLinks_is_donation (links : List Link) (td : TradeData) :
    (applyConfirmLinks links td).is_donation = td.is_donation :=
  (confirmFold_fields _ td).2.2.2

/- ===================== C3 ===================== -/

set_option maxHeartbeats 1000000 in
/-- C3 as stated is false: a profile-like link matching the allowlist
exists in the document, yet the counterparty fields are taken from the
earlier non-matching link and `is_trusted` stays false (both branches of
the scan `break` at the first profile-like link). -/
theorem C3_counterexample :
    (parse_trade_email [str "alice"] docWithLaterAllowlistedLink
        .english).trader_profile = some (str "https://steamcommunity.com/id/bob/") ∧
    (parse_trade_email [str "alice"] docWithLaterAllowlistedLink
        .english).is_trusted_trader = false ∧
    isProfileLinkHref (str "https://steamcommunity.com/id/alice/") = true ∧
    inStr (str "alice") (str "https://steamcommunity.com/id/alice/") = true := by
  decide

/-- C3 (amended): the counterparty fields always come from the first
profile-like link of the document; `is_trusted` is true iff that first
link's target contains an allowlist entry; later allowlisted links are
never preferred. -/
theorem C3_first_profile_link_wins (allowed_traders : List Str) (doc : Doc)
    (language : Lang) :
    ((parse_trade_email allowed_traders doc language).trader_profile =
      ((doc.links.filter fun l => isProfileLinkHref l.href).head?).map Link.href) ∧
    ((parse_trade_email allowed_traders doc language).is_trusted_trader =
      (((doc.links.filter fun l => isProfileLinkHref l.href).head?).map
        (fun l => allowed_traders.any fun a => inStr a l.href)).getD false) ∧
    ((parse_trade_email allowed_traders doc language).trader_name =
      (((doc.links.filter fun l => isProfileLinkHref l.href).head?).map
        (fun l => pyStrip l.text)).getD (str "Unknown")) := by
  simp only [parse_trade_email]
  rw [applyConfirmLinks_trader_profile, applyConfirmLinks_is_trusted,
    applyConfirmLinks_trader_name]
  simp only [preConfirmRecord]
  rw [identifyCounterparty_filter]
  cases (doc.links.filter fun l => isProfileLinkHref l.href).head? with
  | none => exact ⟨rfl, rfl, rfl⟩
  | some l => exact ⟨rfl, rfl, rfl⟩

/- ===================== C9 ===================== -/

lemma tableStep_snd (language : Lang) (acc : List Item × List Item)
    (table : HtmlTable)
    (h : tableIsTheirItems language (lowerStr table.text) = false) :
    (tableStep language acc table).2 = acc.2 := by
  unfold tableStep
  by_cases hy : tableIsYourItems language (lowerStr table.text) <;> simp [hy, h]

lemma foldl_tableStep_snd (language : Lang) (tables : List HtmlTable) :
    ∀ acc : List Item × List Item,
      (∀ t ∈ tables, tableIsTheirItems language (lowerStr t.text) = false) →
      (tables.foldl (tableStep language) acc).2 = acc.2 := by
  induction tables with
  | nil => intro _ _; rfl
  | cons t ts ih =>
    intro acc h
    rw [List.foldl_cons,
      ih _ (fun u hu => h u (List.mem_cons_of_mem _ hu))]
    exact tableStep_snd language acc t (h t (List.mem_cons_self t ts))

set_option maxHeartbeats 1000000 in
/-- C9 as stated is false: the donation flag is computed from the
document text independently of the item sections, so a record can carry
`is_donation = true` together with nonempty `requested_items`. -/
theorem C9_counterexample :
    (parse_trade_email [] donationWithItemsDoc .english).is_donation = true ∧
    (parse_trade_email [] donationWithItemsDoc .english).their_items ≠ [] := by
  decide

/-- C9 (amended): `is_donation` is determined solely by the presence of
the language's no-items-selected phrases in the document text, and
`requested_items` stays empty only when no table block's text matches
the their-items labels; the implication from `is_donation` to empty
`requested_items` is not enforced. -/
theorem C9_donation_and_their_items (allowed_traders : List Str) (doc : Doc)
    (language : Lang)
    (h : ∀ t ∈ doc.tables, tableIsTheirItems language (lowerStr t.text) = false) :
    (parse_trade_email allowed_traders doc language).their_items = [] ∧
    (parse_trade_email allowed_traders doc language).is_donation =
      detectDonation language doc.text := by
  constructor
  · rw [parse_trade_email, applyConfirmLinks_their_items]
    show (classifyTables language doc.tables).2 = []
    exact foldl_tableStep_snd language doc.tables ([], []) h
  · rw [parse_trade_email, applyConfirmLinks_is_donation]
    rfl

/-- Witness for C9's amended theorem on a document without tables. -/
theorem C9_donation_and_their_items_witness :
    (parse_trade_email [] emptyDoc .english).their_items = [] ∧
    (parse_trade_email [] emptyDoc .english).is_donation =
      detectDonation .english [] :=
  C9_donation_and_their_items [] emptyDoc .english (by intro t ht; cases ht)

/- ===================== C4 ===================== -/

lemma offerStep_extraction_absent (parse : Str → Lang → Option TradeData)
    (trade_offers : List Offer) (e : Email)
    (h : parse e.body (detect_email_language e.subject e.body) = none) :
    offerStep parse trade_offers e = trade_offers := by
  unfold offerStep
  by_cases hs : isTradeEmailSubject e.subject <;> simp [hs, h]

set_option maxHeartbeats 1000000 in
/-- C4 as stated is false: a fetched trade notification whose extraction
yields `absent` is dropped by `get_trade_offer_emails` (`if
trade_data:`) before the Offer Processor runs, so it is not counted in
`processed_count` (here: 0, not 1). -/
theorem C4_counterexample :
    isTradeEmailSubject tradeSubjectEmail.subject = true ∧
    get_trade_offer_emails (fun _ _ => none) [tradeSubjectEmail] = [] ∧
    (process_trade_offers [] (fun _ _ => true)
      (get_trade_offer_emails (fun _ _ => none) [tradeSubjectEmail])).1 = 0 := by
  decide

/-- C4 (amended): a notification whose extraction yields `absent`
contributes no entry to the offer list, wherever it occurs in the batch,
and is therefore not counted; `processed_count` is exactly the number of
offers that reach the Offer Processor, each counted once regardless of
outcome. -/
theorem C4_absent_filtered_out (parse : Str → Lang → Option TradeData)
    (emails₁ emails₂ : List Email) (e : Email) (allowed_traders : List Str)
    (accept : Str → Lang → Bool) (trade_offers : List Offer)
    (h : parse e.body (detect_email_language e.subject e.body) = none) :
    (get_trade_offer_emails parse (emails₁ ++ e :: emails₂) =
      get_trade_offer_emails parse (emails₁ ++ emails₂)) ∧
    ((process_trade_offers allowed_traders accept trade_offers).1 =
      trade_offers.length) := by
  constructor
  · unfold get_trade_offer_emails
    rw [List.foldl_append, List.foldl_cons,
      offerStep_extraction_absent parse _ e h, ← List.foldl_append]
  · unfold process_trade_offers
    rw [process_trade_offers_foldl]
    simp

/-- Witness for C4's amended theorem. -/
theorem C4_absent_filtered_out_witness :
    (get_trade_offer_emails (fun _ _ => none) ([] ++ tradeSubjectEmail :: []) =
      get_trade_offer_emails (fun _ _ => none) ([] ++ [])) ∧
    ((process_trade_offers [] (fun _ _ => true) []).1 = ([] : List Offer).length) :=
  C4_absent_filtered_out (fun _ _ => none) [] [] tradeSubjectEmail [] (fun _ _ => true)
    [] rfl
